import Mathlib

/-!
Verification of the attached-account registry, resource tree and document
mutation protocol of the vscode-cosmosdb extension (files
`MongoAccountTreeItem.ts`, `MongoDocumentTreeItem.ts`,
`AttachedAccountsTreeItem.ts`).

The TypeScript code is embedded shallowly: every method relevant to the
properties below is translated into an executable Lean function over explicit
state, with the external collaborators (mongo client, keytar secret store,
globalState memento, dialogs) represented as oracle parameters.  JavaScript
truthiness checks made by the source (`!newDocument["_id"]`,
`if (databaseInConnectionString ...)`, `if (!this._attachedAccounts)`) are
modelled explicitly.
-/

namespace VsCodeCosmos

/-- A JavaScript value as it can appear in a Mongo document field.  `vOid`
stands for a provider-native ObjectID (an object, hence always truthy). -/
inductive JsValue where
  | vStr (s : String)
  | vOid (n : Nat)
  | vNum (n : Int)
  | vBool (b : Bool)
deriving DecidableEq, Repr

/-- JavaScript truthiness of a field value: the empty string, the number 0 and
`false` are falsy; an ObjectID is an object and hence truthy. -/
def JsValue.truthy : JsValue → Bool
  | .vStr s => s ≠ ""
  | .vOid _ => true
  | .vNum n => n ≠ 0
  | .vBool b => b

/-- `String(v)`: the string JavaScript renders for a value (used when the code
interpolates `_id` into an error message). -/
def JsValue.jsString : JsValue → String
  | .vStr s => s
  | .vOid n => toString n
  | .vNum n => toString n
  | .vBool b => toString b

/-- Truthiness of a possibly-null/undefined JS string (`Option String`):
`null`, `undefined` and `""` are falsy. -/
def jsOptStrTruthy : Option String → Bool
  | none => false
  | some s => s ≠ ""

/-- An error thrown by the embedded code: either a generic `new Error(msg)` or
the distinct `UserCancelledError` class from vscode-azureextensionui. -/
inductive ThrownError where
  | error (msg : String)
  | userCancelledError
deriving DecidableEq, Repr

/-- Whether `pat` occurs as a contiguous run inside `l`
(helper for `strIncludes`). -/
def hasSubstringAux (pat : List Char) : List Char → Bool
  | [] => pat.isEmpty
  | c :: t => List.isPrefixOf pat (c :: t) || hasSubstringAux pat t

/-- JavaScript `s.includes(pat)`: substring containment. -/
def strIncludes (s pat : String) : Bool :=
  hasSubstringAux pat.data s.data

/-! ## MongoDocumentTreeItem (document mutation protocol)

A Mongo document is its JS object: an association list of field name/value
pairs; the first occurrence of a key is the one property access sees. -/

/-- `IMongoDocument`: a document as a field list. -/
abbrev IMongoDocument := List (String × JsValue)

/-- JS property access `doc[k]`: value of the first field named `k`,
`none` when the field is absent (`undefined`). -/
def getField (d : IMongoDocument) (k : String) : Option JsValue :=
  (d.find? (fun q => q.fst == k)).map Prod.snd

/-- underscore's `_.omit(doc, k)`: the document without the field `k`. -/
def omitField (d : IMongoDocument) (k : String) : IMongoDocument :=
  d.filter (fun q => !(q.fst == k))

/-- The condition tested by `if (!newDocument["_id"])`: the `_id` field is
present and truthy. -/
def idFieldTruthy (d : IMongoDocument) : Bool :=
  match getField d "_id" with
  | none => false
  | some v => v.truthy

/-- Message of the validation error thrown by `MongoDocumentTreeItem.update`
when `_id` is missing (quoting of `_id` in the original elided). -/
def updateValidationMessage : String :=
  "The _id field is required to update a document."

/-- Message thrown when `updateOne` modified a row count other than one
(quoting of the id in the original elided). -/
def updateFailedMessage (v : JsValue) : String :=
  "Failed to update document with _id " ++ v.jsString ++ "."

/-- Message thrown when `deleteOne` deleted a row count other than one
(quoting of the id in the original elided). -/
def deleteFailedMessage (v : JsValue) : String :=
  "Failed to delete document with _id " ++ v.jsString ++ "."

instance exceptDecEq {ε α : Type} [DecidableEq ε] [DecidableEq α] :
    DecidableEq (Except ε α)
  | .ok x, .ok y =>
    if h : x = y then .isTrue (by rw [h]) else .isFalse (by intro hc; cases hc; exact h rfl)
  | .ok _, .error _ => .isFalse (by intro hc; cases hc)
  | .error _, .ok _ => .isFalse (by intro hc; cases hc)
  | .error e, .error f =>
    if h : e = f then .isTrue (by rw [h]) else .isFalse (by intro hc; cases hc; exact h rfl)

/-- Outcome of an update: the value returned or error thrown, plus the list of
`updateOne(filter, payload)` provider calls that were issued. -/
structure UpdateOutcome where
  result : Except ThrownError IMongoDocument
  calls : List (IMongoDocument × IMongoDocument)
deriving DecidableEq, Repr

/-- `MongoDocumentTreeItem.update` (static).  `updateOne` is the provider
collection oracle: given the filter and the update payload it returns
`modifiedCount`. -/
def MongoDocumentTreeItem.update (updateOne : IMongoDocument → IMongoDocument → Nat)
    (newDocument : IMongoDocument) : UpdateOutcome :=
  match getField newDocument "_id" with
  | none =>
    { result := .error (.error updateValidationMessage), calls := [] }
  | some v =>
    if v.truthy then
      let filter : IMongoDocument := [("_id", v)]
      let payload := omitField newDocument "_id"
      let modified := updateOne filter payload
      if modified == 1 then
        { result := .ok newDocument, calls := [(filter, payload)] }
      else
        { result := .error (.error (updateFailedMessage v)), calls := [(filter, payload)] }
    else
      { result := .error (.error updateValidationMessage), calls := [] }

/-- Result of the modal delete-confirmation dialog: the user clicked Delete,
clicked Cancel, or dismissed the dialog. -/
inductive DialogResult where
  | deleteResponse
  | cancel
  | dismissed
deriving DecidableEq, Repr

/-- Outcome of a delete: success or thrown error, plus the list of
`deleteOne(filter)` provider calls that were issued. -/
structure DeleteOutcome where
  result : Except ThrownError Unit
  calls : List IMongoDocument
deriving DecidableEq, Repr

/-- `MongoDocumentTreeItem.deleteTreeItemImpl`.  `deleteOne` is the provider
oracle returning `deletedCount`; `dialogResult` is the outcome of the modal
confirmation shown first; `docId` is `this.document._id`. -/
def MongoDocumentTreeItem.deleteTreeItemImpl (deleteOne : IMongoDocument → Nat)
    (dialogResult : DialogResult) (docId : JsValue) : DeleteOutcome :=
  if dialogResult = .deleteResponse then
    let filter : IMongoDocument := [("_id", docId)]
    let deleted := deleteOne filter
    if deleted == 1 then
      { result := .ok (), calls := [filter] }
    else
      { result := .error (.error (deleteFailedMessage docId)), calls := [filter] }
  else
    { result := .error .userCancelledError, calls := [] }

/-! ## MongoAccountTreeItem (database listing of a Mongo-like account) -/

/-- `IDatabaseInfo` as returned by `db.admin().listDatabases()`: both fields
are optional in the source interface. -/
structure IDatabaseInfo where
  name : Option String
  empty : Option Bool
deriving DecidableEq, Repr

/-- Projection of a `MongoDatabaseTreeItem` built by
`new MongoDatabaseTreeItem(this, database.name, this.connectionString)`. -/
structure DatabaseTreeItem where
  databaseName : Option String
  connectionString : Option String
deriving DecidableEq, Repr

/-- Externally visible steps taken by `loadMoreChildrenImpl`: connecting the
client, calling the administrative `listDatabases`, closing the `Db`. -/
inductive MongoEvent where
  | connectCall
  | listDatabasesCall
  | closeCall
deriving DecidableEq, Repr

/-- The environment a single `loadMoreChildrenImpl` call runs in:

* `connectOutcome` — what `connectToMongoClient` does (`.ok` = a `Db` handle,
  `.error msg` = it throws an error with that message);
* `databaseInConnectionString` — what `getDatabaseNameFromConnectionString`
  returns.  Modelled from the spec: that parser lives in
  `mongoConnectionStrings.ts`, which is not part of this source set; it
  extracts the optional database name embedded in the connection string,
  `none` when there is none (an extracted name is never the empty string);
* `listDatabasesOutcome` — what `db.admin().listDatabases()` does. -/
structure MongoLoadEnv where
  connectOutcome : Except String Unit
  databaseInConnectionString : Option String
  listDatabasesOutcome : Except String (List IDatabaseInfo)

/-- The emulator guidance text prepended by the catch block. -/
def emulatorGuidance : String :=
  "Unable to reach emulator. Please ensure it is started and writing to the appropriate port. Then try again."

/-- The catch block of `loadMoreChildrenImpl`: on an emulator account, an
error whose message contains `ECONNREFUSED` is re-thrown with the guidance
text and a newline prepended; every other error is re-thrown unchanged. -/
def catchRewrite (isEmulator : Bool) (msg : String) : ThrownError :=
  if isEmulator && strIncludes msg "ECONNREFUSED" then
    .error (emulatorGuidance ++ "\n" ++ msg)
  else
    .error msg

/-- ASCII lowering of one character (JS `toLowerCase` on the ASCII names the
code compares against `admin`). -/
def charLower (c : Char) : Char :=
  if 'A' ≤ c ∧ c ≤ 'Z' then Char.ofNat (c.toNat + 32) else c

/-- JS `s.toLowerCase()` for ASCII strings. -/
def strLower (s : String) : String :=
  ⟨s.data.map charLower⟩

/-- The filter predicate on listed databases: keep every database except one
whose (truthy) name lowercases to `admin` and whose `empty` flag is truthy. -/
def adminFilterKeep (d : IDatabaseInfo) : Bool :=
  !(jsOptStrTruthy d.name
      && strLower (d.name.getD "") == "admin"
      && d.empty.getD false)

/-- Result of one `MongoAccountTreeItem.loadMoreChildrenImpl` call: the child
nodes returned or the error thrown, plus the trace of external steps. -/
structure MongoLoadOutcome where
  result : Except ThrownError (List DatabaseTreeItem)
  events : List MongoEvent
deriving DecidableEq, Repr

/-- `MongoAccountTreeItem.loadMoreChildrenImpl`.  `connectionString` is the
account's connection string (possibly `null` when the secret store had no
entry), `isEmulator` the account root's emulator flag.  The `finally` block
closes the `Db` whenever one was obtained. -/
def MongoAccountTreeItem.loadMoreChildrenImpl (env : MongoLoadEnv)
    (connectionString : Option String) (isEmulator : Bool) : MongoLoadOutcome :=
  if !(jsOptStrTruthy connectionString) then
    { result := .error (catchRewrite isEmulator "Missing connection string"), events := [] }
  else
    match env.connectOutcome with
    | .error msg =>
      { result := .error (catchRewrite isEmulator msg), events := [.connectCall] }
    | .ok () =>
      if jsOptStrTruthy env.databaseInConnectionString && !isEmulator then
        let databases : List IDatabaseInfo :=
          [{ name := env.databaseInConnectionString, empty := some false }]
        { result := .ok ((databases.filter adminFilterKeep).map
            (fun d => { databaseName := d.name, connectionString := connectionString })),
          events := [.connectCall, .closeCall] }
      else
        match env.listDatabasesOutcome with
        | .error msg =>
          { result := .error (catchRewrite isEmulator msg),
            events := [.connectCall, .listDatabasesCall, .closeCall] }
        | .ok databases =>
          { result := .ok ((databases.filter adminFilterKeep).map
              (fun d => { databaseName := d.name, connectionString := connectionString })),
            events := [.connectCall, .listDatabasesCall, .closeCall] }

/-! ## AttachedAccountsTreeItem (the attached-account registry) -/

/-- The `API` enumeration of provider kinds from `experiences.ts`. -/
inductive API where
  | MongoDB
  | Graph
  | Table
  | DocumentDB
deriving DecidableEq, Repr

/-- Modelled from the spec: `getExperience(api).shortName`, the display short
name of a provider kind.  `experiences.ts` is not part of this source set and
the spec does not fix the strings; only their use in labels matters here. -/
def API.shortName : API → String
  | .MongoDB => "MongoDB"
  | .Graph => "Graph"
  | .Table => "Table"
  | .DocumentDB => "SQL"

/-- Projection of an account tree node (a `MongoAccountTreeItem`,
`DocDBAccountTreeItem`, `GraphAccountTreeItem` or `TableAccountTreeItem`):
the fields the registry reads.  `api` is the tagged provider kind — the class
the node was constructed from.  `fullId` is the node's positional identity in
the tree (vscode-azureextensionui computes it from the ancestor path). -/
structure AccountNode where
  id : String
  fullId : String
  label : String
  api : API
  isEmulator : Bool
  connectionString : Option String
deriving DecidableEq, Repr

/-- The persisted record shape `IPersistedAccount`. -/
structure IPersistedAccount where
  id : String
  defaultExperience : API
  isEmulator : Bool
deriving DecidableEq, Repr

/-- One element of the persisted JSON array: either a legacy bare id string or
a full `IPersistedAccount` record. -/
inductive PersistedEntry where
  | legacyString (s : String)
  | record (r : IPersistedAccount)
deriving DecidableEq, Repr

/-- The fixed secret-store service name `_serviceName`. -/
def serviceName : String := "ms-azuretools.vscode-cosmosdb.connectionStrings"

/-- `persistIds`: the record list written to global state — each attached node
mapped to its id, its provider kind and its emulator flag. -/
def persistIds (attachedAccounts : List AccountNode) : List IPersistedAccount :=
  attachedAccounts.map
    (fun node => { id := node.id, defaultExperience := node.api, isEmulator := node.isEmulator })

/-- Externally visible effects of the registry's attach/detach operations. -/
inductive RegistryEvent where
  | setSecret (service key value : String)
  | deleteSecret (service key : String)
  | persist (records : List IPersistedAccount)
  | warn (msg : String)
deriving DecidableEq, Repr

/-- Registry state relevant to attach/detach: the resolved in-memory account
list and whether the optional keytar secret store is available. -/
structure RegistryState where
  attachedAccounts : List AccountNode
  keytarAvailable : Bool
deriving DecidableEq, Repr

/-- Warning shown when attaching an id that is already attached
(quoting of the id in the original elided). -/
def attachWarningMessage (id : String) : String :=
  "Database Account " ++ id ++ " is already attached."

/-- Outcome of an attach or detach operation: the new registry state and the
external effects issued, in order. -/
structure RegistryOutcome where
  state : RegistryState
  events : List RegistryEvent
deriving DecidableEq, Repr

/-- `AttachedAccountsTreeItem.attachAccount`: if some attached account already
has the new node's `id`, only a warning is shown; otherwise the node is pushed
onto the in-memory list and, when keytar is available, the secret is written
under the node's `id` and the full record list is re-persisted. -/
def AttachedAccountsTreeItem.attachAccount (st : RegistryState)
    (treeItem : AccountNode) (connectionString : String) : RegistryOutcome :=
  if (st.attachedAccounts.find? (fun s => s.id == treeItem.id)).isSome then
    { state := st, events := [.warn (attachWarningMessage treeItem.id)] }
  else
    let newList := st.attachedAccounts ++ [treeItem]
    if st.keytarAvailable then
      { state := { st with attachedAccounts := newList },
        events := [.setSecret serviceName treeItem.id connectionString,
                   .persist (persistIds newList)] }
    else
      { state := { st with attachedAccounts := newList }, events := [] }

/-- `AttachedAccountsTreeItem.detach`: the first attached account whose
`fullId` equals the target node's `fullId` is spliced out; when keytar is
available the secret is deleted under the bare `id` (intentionally not the
`fullId`, for backwards compatibility) and the record list re-persisted.  When
nothing matches, nothing happens.  (The provider-side cache eviction the
source then performs goes through collaborators outside this source set and
carries no registry state; it is not modelled.) -/
def AttachedAccountsTreeItem.detach (st : RegistryState) (node : AccountNode) :
    RegistryOutcome :=
  match st.attachedAccounts.findIdx? (fun account => account.fullId == node.fullId) with
  | none => { state := st, events := [] }
  | some index =>
    let newList := st.attachedAccounts.eraseIdx index
    if st.keytarAvailable then
      { state := { st with attachedAccounts := newList },
        events := [.deleteSecret serviceName node.id, .persist (persistIds newList)] }
    else
      { state := { st with attachedAccounts := newList }, events := [] }

/-- A parsed document-oriented connection string
(`parseDocDBConnectionString`). -/
structure ParsedDocDBCS where
  accountId : String
  documentEndpoint : String
  masterKey : String
deriving DecidableEq, Repr

/-- The oracles `loadPersistedAccounts`/`createTreeItem` call out to:

* `getPassword` — `keytar.getPassword(serviceName, id)`, `none` = `null`;
* `parseMongoFullId` — modelled from the spec: `parseMongoConnectionString`
  (in `mongoConnectionStrings.ts`, not part of this source set) parses a
  Mongo connection string and its `fullId` is used as the account id when
  none was supplied;
* `parseDocDB` — modelled from the spec: `parseDocDBConnectionString` (in
  `docDBConnectionStrings.ts`, not part of this source set) decomposes an
  `AccountEndpoint=...;AccountKey=...` string; modelled total because the
  failure path is not exercised by the properties below. -/
structure LoadEnv where
  getPassword : String → Option String
  parseMongoFullId : Option String → String
  parseDocDB : Option String → ParsedDocDBCS

/-- Modelled from the spec: the node's positional identity — the tree path of
ids down from the root grouping node (id `cosmosDBAttachedAccounts`). -/
def attachedFullId (id : String) : String :=
  "/cosmosDBAttachedAccounts/" ++ id

/-- `AttachedAccountsTreeItem.createTreeItem`: constructs the account node of
the requested provider kind.  For Mongo, a missing `id` is filled in by
parsing the connection string; for the document-oriented family the id always
comes from the parsed connection string.  A missing `isEmulator` is JS
`undefined`, which every consumer treats as false. -/
def AttachedAccountsTreeItem.createTreeItem (env : LoadEnv)
    (connectionString : Option String) (api : API) (label : Option String)
    (id : Option String) (isEmulator : Option Bool) : AccountNode :=
  if api = .MongoDB then
    let theId : String :=
      match id with
      | some i => i
      | none => env.parseMongoFullId connectionString
    let theLabel := label.getD (theId ++ " (" ++ API.shortName .MongoDB ++ ")")
    { id := theId, fullId := attachedFullId theId, label := theLabel,
      api := .MongoDB, isEmulator := isEmulator.getD false,
      connectionString := connectionString }
  else
    let parsedCS := env.parseDocDB connectionString
    let theLabel := label.getD (parsedCS.accountId ++ " (" ++ API.shortName api ++ ")")
    { id := parsedCS.accountId, fullId := attachedFullId parsedCS.accountId,
      label := theLabel, api := api, isEmulator := isEmulator.getD false,
      connectionString := connectionString }

/-- The per-entry prelude of `loadPersistedAccounts`: the id, provider kind,
label and emulator flag read off one persisted element.  A bare string is the
legacy form and means Mongo, not an emulator. -/
def resolveEntry : PersistedEntry → String × API × String × Bool
  | .legacyString s => (s, .MongoDB, s ++ " (" ++ API.shortName .MongoDB ++ ")", false)
  | .record r =>
    (r.id, r.defaultExperience,
     if r.isEmulator then API.shortName r.defaultExperience ++ " Emulator"
     else r.id ++ " (" ++ API.shortName r.defaultExperience ++ ")",
     r.isEmulator)

/-- `AttachedAccountsTreeItem.loadPersistedAccounts`: when a persisted value
exists and keytar is available, every element is resolved to an account node
(fetching its connection string from the secret store); otherwise the load
yields no accounts.  The source resolves the elements concurrently with
`Promise.all`; the model keeps the array order. -/
def AttachedAccountsTreeItem.loadPersistedAccounts (env : LoadEnv)
    (keytarAvailable : Bool) (value : Option (List PersistedEntry)) :
    List AccountNode :=
  match value, keytarAvailable with
  | some accounts, true =>
    accounts.map (fun account =>
      let (id, api, label, isEmulator) := resolveEntry account
      AttachedAccountsTreeItem.createTreeItem env (env.getPassword id) api
        (some label) (some id) (some isEmulator))
  | _, _ => []

/-! ## The single-flight account cache

`AttachedAccountsTreeItem` keeps two fields: `_attachedAccounts` (the resolved
list, `undefined` until a load completed — note that an *empty array* is
truthy in JS, so `if (!this._attachedAccounts)` distinguishes `undefined` from
`[]`) and `_loadPersistedAccountsTask` (the one in-flight promise, created in
the constructor and replaced only by `loadMoreChildrenImpl(clearCache=true)`).

The model makes the promise identity explicit: `taskGen` numbers the task
object currently stored in `_loadPersistedAccountsTask`, `spawnCount` counts
how many times `loadPersistedAccounts()` has been invoked, and a fixed oracle
`Nat → LoadResult` gives each task its settled outcome (a promise settles
once; every awaiter of the same promise sees the same outcome).  Callers are
cooperative logical tasks: `SchedEvent.start i` runs caller `i`'s
`getAttachedAccounts` up to its first suspension point, `SchedEvent.resume i`
resumes it after its awaited task settled, and `SchedEvent.reload` runs the
synchronous cache-clearing prefix of `loadMoreChildrenImpl(clearCache=true)`.
-/

/-- Settled outcome of one `loadPersistedAccounts` task. -/
inductive LoadResult where
  | success (accounts : List AccountNode)
  | failure (err : ThrownError)
deriving DecidableEq, Repr

/-- Message of the error `getAttachedAccounts` throws when the load task
failed. -/
def failedLoadMessage : String :=
  "Failed to load persisted Database Accounts. Reattach the accounts manually."

/-- What a caller that awaited a task with the given outcome observes:
the loaded list, or the catch block's replacement error. -/
def resultOfTask : LoadResult → Except ThrownError (List AccountNode)
  | .success accounts => .ok accounts
  | .failure _ => .error (.error failedLoadMessage)

/-- Phase of one logical caller of `getAttachedAccounts`.  A finished caller
records which task generation it awaited (`none` when it was served from the
cache without suspending) and its observed result. -/
inductive CallerPhase where
  | idle
  | awaiting (gen : Nat)
  | finished (awaitedGen : Option Nat) (r : Except ThrownError (List AccountNode))
deriving DecidableEq, Repr

/-- Global state of the cooperative machine. -/
structure ConcState where
  cache : Option (List AccountNode)
  taskGen : Nat
  spawnCount : Nat
  callers : List CallerPhase
deriving DecidableEq, Repr

/-- Scheduler events of the cooperative machine. -/
inductive SchedEvent where
  | start (i : Nat)
  | resume (i : Nat)
  | reload
deriving DecidableEq, Repr

/-- One step of the machine.

* `start i`: caller `i` enters `getAttachedAccounts`.  If `_attachedAccounts`
  is set (truthy — even `[]`), it returns it at once; otherwise it reads the
  current `_loadPersistedAccountsTask` reference and suspends on it.
* `resume i`: caller `i`'s awaited task has settled.  On success the caller
  assigns the list to `_attachedAccounts` and returns it; on failure the catch
  block assigns `[]` and throws the replacement error.
* `reload`: `loadMoreChildrenImpl(clearCache=true)` clears `_attachedAccounts`
  and stores a freshly created task.

Events that do not apply to the addressed caller's phase leave the state
unchanged. -/
def stepConc (taskOutcome : Nat → LoadResult) (st : ConcState) :
    SchedEvent → ConcState
  | .start i =>
    match st.callers.get? i with
    | some .idle =>
      match st.cache with
      | some accounts =>
        { st with callers := st.callers.set i (.finished none (.ok accounts)) }
      | none =>
        { st with callers := st.callers.set i (.awaiting st.taskGen) }
    | _ => st
  | .resume i =>
    match st.callers.get? i with
    | some (.awaiting gen) =>
      match taskOutcome gen with
      | .success accounts =>
        { st with cache := some accounts,
                  callers := st.callers.set i (.finished (some gen) (.ok accounts)) }
      | .failure _ =>
        { st with cache := some [],
                  callers := st.callers.set i
                    (.finished (some gen) (.error (.error failedLoadMessage))) }
    | _ => st
  | .reload =>
    { st with cache := none, taskGen := st.taskGen + 1, spawnCount := st.spawnCount + 1 }

/-- Run a scheduler event sequence. -/
def runConc (taskOutcome : Nat → LoadResult) (st : ConcState)
    (events : List SchedEvent) : ConcState :=
  events.foldl (stepConc taskOutcome) st

/-! ## Theorems -/

/-- The omitted key never occurs among the keys of `omitField d k`. -/
theorem omitField_no_key (d : IMongoDocument) (k : String) :
    k ∉ (omitField d k).map Prod.fst := by
  intro hmem
  simp only [omitField, List.mem_map, List.mem_filter] at hmem
  obtain ⟨q, ⟨_, hq⟩, hk⟩ := hmem
  rw [hk] at hq
  simp at hq

/-- C2 counterexample: a document whose `_id` field is *present* but holds the
empty string.  The claim says a present `_id` leads to a provider update keyed
by `_id`; the code's truthiness test `!newDocument["_id"]` instead rejects the
document with the validation error and issues no provider call. -/
theorem C2_counterexample :
    getField [(("_id" : String), JsValue.vStr "")] "_id" = some (JsValue.vStr "") ∧
    (MongoDocumentTreeItem.update (fun _ _ => 1) [("_id", JsValue.vStr "")]).calls = [] ∧
    (MongoDocumentTreeItem.update (fun _ _ => 1) [("_id", JsValue.vStr "")]).result
      = .error (.error updateValidationMessage) := by
  exact ⟨rfl, rfl, rfl⟩

/-- C2 (amended): if the new document's `_id` field is missing or falsy the
update fails with the validation error and performs no provider call; if `_id`
is present and truthy, the one provider update is keyed by `_id` with the
`_id` key excluded from the update payload, a modified-row count other than
exactly one raises the conflict error, and a count of exactly one succeeds. -/
theorem C2_update_contract (updateOne : IMongoDocument → IMongoDocument → Nat)
    (d : IMongoDocument) :
    (idFieldTruthy d = false →
       (MongoDocumentTreeItem.update updateOne d).result
           = .error (.error updateValidationMessage) ∧
       (MongoDocumentTreeItem.update updateOne d).calls = []) ∧
    (∀ v, getField d "_id" = some v → v.truthy = true →
       (MongoDocumentTreeItem.update updateOne d).calls
           = [([("_id", v)], omitField d "_id")] ∧
       "_id" ∉ (omitField d "_id").map Prod.fst ∧
       (updateOne [("_id", v)] (omitField d "_id") ≠ 1 →
          (MongoDocumentTreeItem.update updateOne d).result
            = .error (.error (updateFailedMessage v))) ∧
       (updateOne [("_id", v)] (omitField d "_id") = 1 →
          (MongoDocumentTreeItem.update updateOne d).result = .ok d)) := by
  constructor
  · intro hfalse
    unfold idFieldTruthy at hfalse
    unfold MongoDocumentTreeItem.update
    rcases hid : getField d "_id" with _ | v
    · simp
    · rw [hid] at hfalse
      simp only [] at hfalse
      simp [hfalse]
  · intro v hv htruthy
    unfold MongoDocumentTreeItem.update
    rw [hv]
    simp only [htruthy, if_true]
    refine ⟨?_, omitField_no_key d "_id", ?_, ?_⟩
    · split <;> rfl
    · intro hne
      have : (updateOne [("_id", v)] (omitField d "_id") == 1) = false := by
        simpa using hne
      simp [this]
    · intro heq
      simp [heq]

/-- C2 witness: a concrete update with a truthy `_id` and a provider that
reports one modified row succeeds and issues exactly the `_id`-keyed call with
`_id` stripped from the payload. -/
theorem C2_update_contract_witness :
    (MongoDocumentTreeItem.update (fun _ _ => 1)
        [("_id", JsValue.vOid 7), ("a", JsValue.vNum 2)]).result
      = .ok [("_id", JsValue.vOid 7), ("a", JsValue.vNum 2)] ∧
    (MongoDocumentTreeItem.update (fun _ _ => 1)
        [("_id", JsValue.vOid 7), ("a", JsValue.vNum 2)]).calls
      = [([("_id", JsValue.vOid 7)], [("a", JsValue.vNum 2)])] := by
  have h := (C2_update_contract (fun _ _ => 1)
      [("_id", JsValue.vOid 7), ("a", JsValue.vNum 2)]).2 (JsValue.vOid 7) rfl rfl
  refine ⟨h.2.2.2 rfl, ?_⟩
  rw [h.1]
  rfl

/-- C3: the modal confirmation precedes any network effect — when the user
does not confirm (cancel or dismiss), the distinct `UserCancelledError`
cancellation signal is raised (a constructor different from every generic
error) and no `deleteOne` call is issued; when the user confirms, the one
delete is keyed by `_id` and a deleted-row count other than exactly one raises
an error while a count of one succeeds. -/
theorem C3_delete_contract (deleteOne : IMongoDocument → Nat)
    (dialogResult : DialogResult) (docId : JsValue) :
    (dialogResult ≠ .deleteResponse →
       (MongoDocumentTreeItem.deleteTreeItemImpl deleteOne dialogResult docId).result
           = .error .userCancelledError ∧
       (MongoDocumentTreeItem.deleteTreeItemImpl deleteOne dialogResult docId).calls = []) ∧
    (∀ msg, ThrownError.userCancelledError ≠ ThrownError.error msg) ∧
    (dialogResult = .deleteResponse →
       (MongoDocumentTreeItem.deleteTreeItemImpl deleteOne dialogResult docId).calls
           = [[("_id", docId)]] ∧
       (deleteOne [("_id", docId)] ≠ 1 →
          (MongoDocumentTreeItem.deleteTreeItemImpl deleteOne dialogResult docId).result
            = .error (.error (deleteFailedMessage docId))) ∧
       (deleteOne [("_id", docId)] = 1 →
          (MongoDocumentTreeItem.deleteTreeItemImpl deleteOne dialogResult docId).result
            = .ok ())) := by
  refine ⟨?_, ?_, ?_⟩
  · intro hne
    unfold MongoDocumentTreeItem.deleteTreeItemImpl
    simp [hne]
  · intro msg h
    cases h
  · intro heq
    subst heq
    unfold MongoDocumentTreeItem.deleteTreeItemImpl
    have hd : DialogResult.deleteResponse = DialogResult.deleteResponse := rfl
    refine ⟨by rw [if_pos hd]; dsimp only; split <;> rfl, ?_, ?_⟩
    · intro hne
      have : (deleteOne [("_id", docId)] == 1) = false := by simpa using hne
      simp [this]
    · intro h1
      simp [h1]

/-- C3 witness: a concrete declined delete raises the cancellation signal and
issues no provider call. -/
theorem C3_delete_contract_witness :
    (MongoDocumentTreeItem.deleteTreeItemImpl (fun _ => 0)
        DialogResult.cancel (JsValue.vOid 3)).result = .error .userCancelledError ∧
    (MongoDocumentTreeItem.deleteTreeItemImpl (fun _ => 0)
        DialogResult.cancel (JsValue.vOid 3)).calls = [] :=
  (C3_delete_contract (fun _ => 0) .cancel (JsValue.vOid 3)).1 (by decide)

/-- C4: attaching is idempotent by account id (secret store available, as the
claim's secret-store effects presuppose).  When some attached account already
carries the new node's id, the registry state is unchanged and the only effect
is the warning — no secret write, no persist; otherwise the node is appended,
its secret written under its id, and the full record list rewritten.  Hence
pairwise-distinct ids are preserved by every attach. -/
theorem C4_attach_idempotent (st : RegistryState) (treeItem : AccountNode)
    (connectionString : String) (hk : st.keytarAvailable = true) :
    ((∃ a ∈ st.attachedAccounts, a.id = treeItem.id) →
       (AttachedAccountsTreeItem.attachAccount st treeItem connectionString).state = st ∧
       (AttachedAccountsTreeItem.attachAccount st treeItem connectionString).events
         = [.warn (attachWarningMessage treeItem.id)]) ∧
    ((∀ a ∈ st.attachedAccounts, a.id ≠ treeItem.id) →
       (AttachedAccountsTreeItem.attachAccount st treeItem connectionString).state.attachedAccounts
         = st.attachedAccounts ++ [treeItem] ∧
       (AttachedAccountsTreeItem.attachAccount st treeItem connectionString).events
         = [.setSecret serviceName treeItem.id connectionString,
            .persist (persistIds (st.attachedAccounts ++ [treeItem]))]) ∧
    (st.attachedAccounts.Pairwise (fun a b => a.id ≠ b.id) →
       (AttachedAccountsTreeItem.attachAccount st treeItem
          connectionString).state.attachedAccounts.Pairwise (fun a b => a.id ≠ b.id)) := by
  have hfind_some : (∃ a ∈ st.attachedAccounts, a.id = treeItem.id) →
      ((st.attachedAccounts.find? (fun s => s.id == treeItem.id)).isSome = true) := by
    intro hdup
    rw [List.find?_isSome]
    simpa using hdup
  have hfind_none : (∀ a ∈ st.attachedAccounts, a.id ≠ treeItem.id) →
      st.attachedAccounts.find? (fun s => s.id == treeItem.id) = none := by
    intro hnodup
    rw [List.find?_eq_none]
    intro a ha
    simpa using hnodup a ha
  refine ⟨?_, ?_, ?_⟩
  · intro hdup
    unfold AttachedAccountsTreeItem.attachAccount
    rw [if_pos (hfind_some hdup)]
    exact ⟨rfl, rfl⟩
  · intro hnodup
    unfold AttachedAccountsTreeItem.attachAccount
    rw [hfind_none hnodup]
    rw [if_neg (by simp), if_pos hk]
    exact ⟨rfl, rfl⟩
  · intro hpw
    unfold AttachedAccountsTreeItem.attachAccount
    rcases hfind : st.attachedAccounts.find? (fun s => s.id == treeItem.id) with _ | a
    · have hnodup : ∀ a ∈ st.attachedAccounts, a.id ≠ treeItem.id := by
        have hall := List.find?_eq_none.mp hfind
        intro a ha
        simpa using hall a ha
      rw [hfind, if_neg (by simp), if_pos hk]
      show List.Pairwise (fun a b => a.id ≠ b.id) (st.attachedAccounts ++ [treeItem])
      rw [List.pairwise_append]
      refine ⟨hpw, List.pairwise_singleton _ _, ?_⟩
      intro a ha b hb
      rw [List.mem_singleton] at hb
      rw [hb]
      exact hnodup a ha
    · rw [hfind, if_pos (by simp)]
      exact hpw

/-- C4 witness: attaching a fresh account to an empty registry (secret store
available) appends it, writes its secret and persists the one-record list. -/
theorem C4_attach_idempotent_witness :
    (AttachedAccountsTreeItem.attachAccount
        { attachedAccounts := [], keytarAvailable := true }
        { id := "acct1", fullId := "/cosmosDBAttachedAccounts/acct1",
          label := "acct1 (MongoDB)", api := .MongoDB, isEmulator := false,
          connectionString := some "mongodb://h:1" }
        "mongodb://h:1").state.attachedAccounts
      = [{ id := "acct1", fullId := "/cosmosDBAttachedAccounts/acct1",
           label := "acct1 (MongoDB)", api := .MongoDB, isEmulator := false,
           connectionString := some "mongodb://h:1" }] ∧
    (AttachedAccountsTreeItem.attachAccount
        { attachedAccounts := [], keytarAvailable := true }
        { id := "acct1", fullId := "/cosmosDBAttachedAccounts/acct1",
          label := "acct1 (MongoDB)", api := .MongoDB, isEmulator := false,
          connectionString := some "mongodb://h:1" }
        "mongodb://h:1").events
      = [.setSecret serviceName "acct1" "mongodb://h:1",
         .persist [{ id := "acct1", defaultExperience := .MongoDB, isEmulator := false }]] := by
  have h := (C4_attach_idempotent
      { attachedAccounts := [], keytarAvailable := true }
      { id := "acct1", fullId := "/cosmosDBAttachedAccounts/acct1",
        label := "acct1 (MongoDB)", api := .MongoDB, isEmulator := false,
        connectionString := some "mongodb://h:1" }
      "mongodb://h:1" rfl).2.1 (by intro a ha; cases ha)
  exact ⟨h.1, by rw [h.2]; rfl⟩

/-- C9: detach (secret store available, as the claim's effects presuppose).
When some attached account matches the target's positional identity `fullId`,
the first such entry — and only it — is removed, the secret is deleted under
the bare `id` of the target (not its `fullId`), and the record list of the
remaining accounts is rewritten; when nothing matches, the state is unchanged
and no effect at all is issued. -/
theorem C9_detach (st : RegistryState) (node : AccountNode)
    (hk : st.keytarAvailable = true) :
    ((∀ a ∈ st.attachedAccounts, a.fullId ≠ node.fullId) →
       (AttachedAccountsTreeItem.detach st node).state = st ∧
       (AttachedAccountsTreeItem.detach st node).events = []) ∧
    ((∃ a ∈ st.attachedAccounts, a.fullId = node.fullId) →
       ∃ i : Nat, ∃ hi : i < st.attachedAccounts.length,
         (st.attachedAccounts.get ⟨i, hi⟩).fullId = node.fullId ∧
         (∀ j : Nat, ∀ hj : j < i,
            (st.attachedAccounts.get ⟨j, Nat.lt_trans hj hi⟩).fullId ≠ node.fullId) ∧
         (AttachedAccountsTreeItem.detach st node).state.attachedAccounts
           = st.attachedAccounts.eraseIdx i ∧
         (AttachedAccountsTreeItem.detach st node).state.attachedAccounts.length
           = st.attachedAccounts.length - 1 ∧
         (AttachedAccountsTreeItem.detach st node).events
           = [.deleteSecret serviceName node.id,
              .persist (persistIds (st.attachedAccounts.eraseIdx i))]) := by
  constructor
  · intro hnone
    have hfind : st.attachedAccounts.findIdx? (fun a => a.fullId == node.fullId) = none := by
      rw [List.findIdx?_eq_none_iff]
      intro a ha
      simpa using hnone a ha
    unfold AttachedAccountsTreeItem.detach
    rw [hfind]
    exact ⟨rfl, rfl⟩
  · intro hsome
    have hex : ∃ a, a ∈ st.attachedAccounts ∧ (fun a => a.fullId == node.fullId) a := by
      obtain ⟨a, ha, he⟩ := hsome
      exact ⟨a, ha, by simpa using he⟩
    have hfind := List.findIdx?_eq_some_of_exists hex
    obtain ⟨hi, hp, hbefore⟩ := List.findIdx?_eq_some_iff_getElem.mp hfind
    refine ⟨st.attachedAccounts.findIdx (fun a => a.fullId == node.fullId), hi, ?_, ?_, ?_, ?_, ?_⟩
    · simpa using hp
    · intro j hj
      have := hbefore j hj
      simpa using this
    · unfold AttachedAccountsTreeItem.detach
      rw [hfind]
      simp only [hk, if_true]
    · unfold AttachedAccountsTreeItem.detach
      rw [hfind]
      simp only [hk, if_true]
      exact List.length_eraseIdx_of_lt hi
    · unfold AttachedAccountsTreeItem.detach
      rw [hfind]
      simp only [hk, if_true]

/-- C9 witness: detaching the second of two attached accounts (matched by
positional identity) removes exactly it, deletes the secret under the bare id
`b` and persists the remaining one-record list; the first account stays. -/
theorem C9_detach_witness :
    (AttachedAccountsTreeItem.detach
        { attachedAccounts :=
            [{ id := "a", fullId := "/cosmosDBAttachedAccounts/a", label := "a",
               api := .MongoDB, isEmulator := false, connectionString := none },
             { id := "b", fullId := "/cosmosDBAttachedAccounts/b", label := "b",
               api := .DocumentDB, isEmulator := true, connectionString := none }],
          keytarAvailable := true }
        { id := "b", fullId := "/cosmosDBAttachedAccounts/b", label := "b",
          api := .DocumentDB, isEmulator := true, connectionString := none }).state.attachedAccounts
      = [{ id := "a", fullId := "/cosmosDBAttachedAccounts/a", label := "a",
           api := .MongoDB, isEmulator := false, connectionString := none }] ∧
    (AttachedAccountsTreeItem.detach
        { attachedAccounts :=
            [{ id := "a", fullId := "/cosmosDBAttachedAccounts/a", label := "a",
               api := .MongoDB, isEmulator := false, connectionString := none },
             { id := "b", fullId := "/cosmosDBAttachedAccounts/b", label := "b",
               api := .DocumentDB, isEmulator := true, connectionString := none }],
          keytarAvailable := true }
        { id := "b", fullId := "/cosmosDBAttachedAccounts/b", label := "b",
          api := .DocumentDB, isEmulator := true, connectionString := none }).events
      = [.deleteSecret serviceName "b",
         .persist [{ id := "a", defaultExperience := .MongoDB, isEmulator := false }]] := by
  have h := (C9_detach
      { attachedAccounts :=
          [{ id := "a", fullId := "/cosmosDBAttachedAccounts/a", label := "a",
             api := .MongoDB, isEmulator := false, connectionString := none },
           { id := "b", fullId := "/cosmosDBAttachedAccounts/b", label := "b",
             api := .DocumentDB, isEmulator := true, connectionString := none }],
        keytarAvailable := true }
      { id := "b", fullId := "/cosmosDBAttachedAccounts/b", label := "b",
        api := .DocumentDB, isEmulator := true, connectionString := none } rfl).2
      (by
        refine ⟨{ id := "b", fullId := "/cosmosDBAttachedAccounts/b", label := "b",
                  api := .DocumentDB, isEmulator := true, connectionString := none }, ?_, rfl⟩
        exact List.mem_cons_of_mem _ (List.mem_singleton.mpr rfl))
  obtain ⟨i, hi, hmatch, hbefore, hstate, hlen, hevents⟩ := h
  have hi2 : i < 2 := by simpa using hi
  have hi1 : i = 1 := by
    interval_cases i
    · exact absurd (show ("/cosmosDBAttachedAccounts/a" : String)
          = "/cosmosDBAttachedAccounts/b" from hmatch) (by decide)
    · rfl
  subst hi1
  constructor
  · rw [hstate]
    rfl
  · rw [hevents]
    rfl

/-- C5 counterexample: an *emulator-flagged* account whose connection string
embeds the database name `orders`.  The claim says the children are exactly
the one embedded database regardless of the administrative listing; the code's
guard `databaseInConnectionString && !this.root.isEmulator` makes an emulator
account fall through to `listDatabases`, so the children come from the
listing (`sales`) and the administrative call is issued. -/
theorem C5_counterexample :
    (MongoAccountTreeItem.loadMoreChildrenImpl
        { connectOutcome := .ok (), databaseInConnectionString := some "orders",
          listDatabasesOutcome := .ok [{ name := some "sales", empty := some false }] }
        (some "mongodb://h/orders") true).result
      = .ok [{ databaseName := some "sales", connectionString := some "mongodb://h/orders" }] ∧
    MongoEvent.listDatabasesCall ∈
      (MongoAccountTreeItem.loadMoreChildrenImpl
        { connectOutcome := .ok (), databaseInConnectionString := some "orders",
          listDatabasesOutcome := .ok [{ name := some "sales", empty := some false }] }
        (some "mongodb://h/orders") true).events := by
  exact ⟨by decide, by decide⟩

/-- C5 (amended): for every *non-emulator* Mongo-like account whose connection
string embeds a database name, listing the account's children returns exactly
one database node bearing that embedded name, without invoking the
administrative list-databases call, regardless of what that listing would
return. -/
theorem C5_embedded_database (env : MongoLoadEnv) (connectionString : Option String)
    (dbName : String)
    (hcs : jsOptStrTruthy connectionString = true)
    (hname : env.databaseInConnectionString = some dbName) (hne : dbName ≠ "")
    (hconn : env.connectOutcome = .ok ()) :
    (MongoAccountTreeItem.loadMoreChildrenImpl env connectionString false).result
      = .ok [{ databaseName := some dbName, connectionString := connectionString }] ∧
    MongoEvent.listDatabasesCall ∉
      (MongoAccountTreeItem.loadMoreChildrenImpl env connectionString false).events := by
  unfold MongoAccountTreeItem.loadMoreChildrenImpl
  rw [hcs, if_neg (by decide), hconn]
  have hguard : (jsOptStrTruthy env.databaseInConnectionString && !false) = true := by
    rw [hname]
    simp [jsOptStrTruthy, hne]
  rw [hguard]
  have hkeep : adminFilterKeep { name := some dbName, empty := some false } = true := by
    simp [adminFilterKeep]
  simp only [if_true, hname]
  constructor
  · simp [List.filter, hkeep, hname]
  · decide

/-- C5 witness: a concrete non-emulator account with embedded name `orders`
yields exactly the `orders` node and never calls the administrative listing,
even though that listing would have returned `sales`. -/
theorem C5_embedded_database_witness :
    (MongoAccountTreeItem.loadMoreChildrenImpl
        { connectOutcome := .ok (), databaseInConnectionString := some "orders",
          listDatabasesOutcome := .ok [{ name := some "sales", empty := some false }] }
        (some "mongodb://h/orders") false).result
      = .ok [{ databaseName := some "orders", connectionString := some "mongodb://h/orders" }] ∧
    MongoEvent.listDatabasesCall ∉
      (MongoAccountTreeItem.loadMoreChildrenImpl
        { connectOutcome := .ok (), databaseInConnectionString := some "orders",
          listDatabasesOutcome := .ok [{ name := some "sales", empty := some false }] }
        (some "mongodb://h/orders") false).events :=
  C5_embedded_database
    { connectOutcome := .ok (), databaseInConnectionString := some "orders",
      listDatabasesOutcome := .ok [{ name := some "sales", empty := some false }] }
    (some "mongodb://h/orders") "orders" rfl rfl (by decide) rfl

/-- The claim's description of the one filtered-out database: named `admin`
(case-insensitively, as the code lowercases before comparing) and reporting
itself empty. -/
def isEmptyAdminDb (d : IDatabaseInfo) : Bool :=
  (match d.name with
   | some s => strLower s == "admin"
   | none => false) && d.empty == some true

/-- The source's filter predicate keeps a database exactly when it is not an
empty `admin` database in the claim's sense. -/
theorem adminFilterKeep_eq (d : IDatabaseInfo) :
    adminFilterKeep d = !(isEmptyAdminDb d) := by
  rcases d with ⟨name, empty⟩
  rcases name with _ | s
  · simp [adminFilterKeep, isEmptyAdminDb, jsOptStrTruthy]
  · rcases empty with _ | b
    · simp [adminFilterKeep, isEmptyAdminDb, jsOptStrTruthy]
    · by_cases hs : s = ""
      · subst hs
        have : (strLower "" == "admin") = false := by decide
        simp [adminFilterKeep, isEmptyAdminDb, jsOptStrTruthy, this]
      · cases b <;> simp [adminFilterKeep, isEmptyAdminDb, jsOptStrTruthy, hs]

/-- C6: when children come from the administrative listing, the returned node
set is the listing with exactly the empty `admin` database removed — a
database named `admin` is omitted iff it reports itself empty, and every
other database (including a non-empty `admin`) yields a node. -/
theorem C6_admin_filter (env : MongoLoadEnv) (connectionString : Option String)
    (isEmulator : Bool) (dbs : List IDatabaseInfo)
    (hcs : jsOptStrTruthy connectionString = true)
    (hconn : env.connectOutcome = .ok ())
    (hbranch : jsOptStrTruthy env.databaseInConnectionString = false ∨ isEmulator = true)
    (hlist : env.listDatabasesOutcome = .ok dbs) :
    (MongoAccountTreeItem.loadMoreChildrenImpl env connectionString isEmulator).result
      = .ok ((dbs.filter (fun d => !(isEmptyAdminDb d))).map
          (fun d => { databaseName := d.name, connectionString := connectionString })) ∧
    (∀ d ∈ dbs,
       d ∈ dbs.filter (fun d => !(isEmptyAdminDb d)) ↔ ¬ isEmptyAdminDb d = true) := by
  have hguard : (jsOptStrTruthy env.databaseInConnectionString && !isEmulator) = false := by
    rcases hbranch with h | h
    · rw [h]
      rfl
    · rw [h]
      exact Bool.and_false _
  have hfilters : dbs.filter adminFilterKeep = dbs.filter (fun d => !(isEmptyAdminDb d)) :=
    List.filter_congr (fun d _ => adminFilterKeep_eq d)
  constructor
  · unfold MongoAccountTreeItem.loadMoreChildrenImpl
    rw [hcs, if_neg (by decide), hconn, hguard]
    simp only [Bool.false_eq_true, if_false, hlist]
    rw [hfilters]
  · intro d hd
    simp [List.mem_filter, hd]

/-- C6 witness: the spec scenario — the backing store reports an empty
`admin` and a non-empty `sales`; only `sales` becomes a child node. -/
theorem C6_admin_filter_witness :
    (MongoAccountTreeItem.loadMoreChildrenImpl
        { connectOutcome := .ok (), databaseInConnectionString := none,
          listDatabasesOutcome := .ok [{ name := some "admin", empty := some true },
                                       { name := some "sales", empty := some false }] }
        (some "mongodb://h") false).result
      = .ok [{ databaseName := some "sales", connectionString := some "mongodb://h" }] := by
  have h := (C6_admin_filter
      { connectOutcome := .ok (), databaseInConnectionString := none,
        listDatabasesOutcome := .ok [{ name := some "admin", empty := some true },
                                     { name := some "sales", empty := some false }] }
      (some "mongodb://h") false
      [{ name := some "admin", empty := some true },
       { name := some "sales", empty := some false }]
      rfl rfl (Or.inl rfl) rfl).1
  rw [h]
  decide

/-- C7 counterexample: an emulator-flagged account fails to connect with a
message that does *not* contain `ECONNREFUSED` (a timeout).  The claim says
every connection failure on an emulator account is re-raised with the
guidance prepended; the code conditions the rewrite on
`message.includes("ECONNREFUSED")`, so this error is re-raised unchanged. -/
theorem C7_counterexample :
    (MongoAccountTreeItem.loadMoreChildrenImpl
        { connectOutcome := .error "connect ETIMEDOUT 10.0.0.1:27017",
          databaseInConnectionString := none, listDatabasesOutcome := .ok [] }
        (some "mongodb://h") true).result
      = .error (.error "connect ETIMEDOUT 10.0.0.1:27017") ∧
    ("connect ETIMEDOUT 10.0.0.1:27017"
      ≠ emulatorGuidance ++ "\n" ++ "connect ETIMEDOUT 10.0.0.1:27017") := by
  exact ⟨rfl, by decide⟩

/-- C7 (amended): on an emulator-flagged account, every failure whose message
contains `ECONNREFUSED` — whether thrown by the connect or by the
administrative listing — is re-raised as guidance text, newline, original
message; and whenever the connect succeeded (a connection was opened), the
`finally` block closes it on every exit path. -/
theorem C7_emulator_hint (env : MongoLoadEnv) (connectionString : Option String)
    (msg : String) (hcs : jsOptStrTruthy connectionString = true) :
    (env.connectOutcome = .error msg → strIncludes msg "ECONNREFUSED" = true →
       (MongoAccountTreeItem.loadMoreChildrenImpl env connectionString true).result
         = .error (.error (emulatorGuidance ++ "\n" ++ msg))) ∧
    (env.connectOutcome = .ok () → env.listDatabasesOutcome = .error msg →
       strIncludes msg "ECONNREFUSED" = true →
       (MongoAccountTreeItem.loadMoreChildrenImpl env connectionString true).result
         = .error (.error (emulatorGuidance ++ "\n" ++ msg))) ∧
    (env.connectOutcome = .ok () →
       MongoEvent.closeCall ∈
         (MongoAccountTreeItem.loadMoreChildrenImpl env connectionString true).events) := by
  have hguard : (jsOptStrTruthy env.databaseInConnectionString && !true) = false :=
    Bool.and_false _
  refine ⟨?_, ?_, ?_⟩
  · intro hconn hinc
    unfold MongoAccountTreeItem.loadMoreChildrenImpl
    rw [hcs, if_neg (by decide), hconn]
    unfold catchRewrite
    simp [hinc]
  · intro hconn hlist hinc
    unfold MongoAccountTreeItem.loadMoreChildrenImpl
    rw [hcs, if_neg (by decide), hconn, hguard]
    simp only [Bool.false_eq_true, if_false, hlist]
    unfold catchRewrite
    simp [hinc]
  · intro hconn
    unfold MongoAccountTreeItem.loadMoreChildrenImpl
    rw [hcs, if_neg (by decide), hconn, hguard]
    simp only [Bool.false_eq_true, if_false]
    rcases env.listDatabasesOutcome with _ | dbs <;> simp

/-- C7 witness: a concrete emulator connect failure containing `ECONNREFUSED`
is re-raised with the guidance prepended. -/
theorem C7_emulator_hint_witness :
    (MongoAccountTreeItem.loadMoreChildrenImpl
        { connectOutcome := .error "connect ECONNREFUSED 127.0.0.1:10255",
          databaseInConnectionString := none, listDatabasesOutcome := .ok [] }
        (some "mongodb://localhost:10255") true).result
      = .error (.error (emulatorGuidance ++ "\n" ++ "connect ECONNREFUSED 127.0.0.1:10255")) :=
  (C7_emulator_hint
    { connectOutcome := .error "connect ECONNREFUSED 127.0.0.1:10255",
      databaseInConnectionString := none, listDatabasesOutcome := .ok [] }
    (some "mongodb://localhost:10255") "connect ECONNREFUSED 127.0.0.1:10255"
    rfl).1 rfl (by decide)

/-- C8: loading a persisted list (value present, secret store available)
yields exactly one account per persisted element, in order.  A legacy
bare-string element resolves to an account whose provider kind is Mongo-like,
whose emulator flag is false and whose id is the bare string itself; a
record-shaped element in the same array resolves to an account with its
stored provider kind and emulator flag. -/
theorem C8_legacy_strings (env : LoadEnv) (entries : List PersistedEntry) (i : Nat) :
    (AttachedAccountsTreeItem.loadPersistedAccounts env true (some entries)).length
      = entries.length ∧
    (∀ s, entries.get? i = some (.legacyString s) →
       ∃ node : AccountNode,
         (AttachedAccountsTreeItem.loadPersistedAccounts env true (some entries)).get? i
           = some node ∧
         node.api = .MongoDB ∧ node.isEmulator = false ∧ node.id = s) ∧
    (∀ r, entries.get? i = some (.record r) →
       ∃ node : AccountNode,
         (AttachedAccountsTreeItem.loadPersistedAccounts env true (some entries)).get? i
           = some node ∧
         node.api = r.defaultExperience ∧ node.isEmulator = r.isEmulator) := by
  have hmap : AttachedAccountsTreeItem.loadPersistedAccounts env true (some entries)
      = entries.map (fun account =>
          let (id, api, label, isEmulator) := resolveEntry account
          AttachedAccountsTreeItem.createTreeItem env (env.getPassword id) api
            (some label) (some id) (some isEmulator)) := rfl
  refine ⟨by rw [hmap, List.length_map], ?_, ?_⟩
  · intro s hs
    refine ⟨_, by rw [hmap, List.get?_map, hs]; rfl, ?_, ?_, ?_⟩ <;>
      simp [resolveEntry, AttachedAccountsTreeItem.createTreeItem]
  · intro r hr
    refine ⟨_, by rw [hmap, List.get?_map, hr]; rfl, ?_, ?_⟩ <;>
      cases hapi : r.defaultExperience <;>
        simp [resolveEntry, AttachedAccountsTreeItem.createTreeItem, hapi]

/-- C8 witness: the spec scenario — the persisted value `["acct1"]` loads as
exactly one account of provider kind Mongo-like with `isEmulator = false` and
id `acct1`. -/
theorem C8_legacy_strings_witness :
    (AttachedAccountsTreeItem.loadPersistedAccounts
        { getPassword := fun _ => some "mongodb://h:27017",
          parseMongoFullId := fun _ => "parsed",
          parseDocDB := fun _ => { accountId := "acc", documentEndpoint := "ep", masterKey := "k" } }
        true (some [.legacyString "acct1"])).length = 1 ∧
    ∃ node : AccountNode,
      (AttachedAccountsTreeItem.loadPersistedAccounts
          { getPassword := fun _ => some "mongodb://h:27017",
            parseMongoFullId := fun _ => "parsed",
            parseDocDB := fun _ => { accountId := "acc", documentEndpoint := "ep", masterKey := "k" } }
          true (some [.legacyString "acct1"])).get? 0 = some node ∧
      node.api = .MongoDB ∧ node.isEmulator = false ∧ node.id = "acct1" := by
  have h := C8_legacy_strings
      { getPassword := fun _ => some "mongodb://h:27017",
        parseMongoFullId := fun _ => "parsed",
        parseDocDB := fun _ => { accountId := "acc", documentEndpoint := "ep", masterKey := "k" } }
      [.legacyString "acct1"] 0
  exact ⟨h.1, h.2.1 "acct1" rfl⟩

/-- Invariant of one cache generation `gen`: an awaiting caller awaits task
`gen`, and a finished caller that awaited some task awaited task `gen` and
observed exactly that task's settled outcome. -/
def phaseOk (taskOutcome : Nat → LoadResult) (gen : Nat) : CallerPhase → Prop
  | .idle => True
  | .awaiting g => g = gen
  | .finished ag r => ∀ g, ag = some g → g = gen ∧ r = resultOfTask (taskOutcome g)

/-- `get?` after `set` at the same in-bounds index yields the new value. -/
theorem listGet?SetSame {α : Type} (l : List α) (i : Nat) (v x : α)
    (h : l.get? i = some x) : (l.set i v).get? i = some v := by
  rw [List.get?_set_eq, h]
  rfl

/-- Any non-reload step preserves the generation invariant, the task
reference and the spawn count. -/
theorem stepConc_preserves (taskOutcome : Nat → LoadResult) (gen : Nat)
    (st : ConcState) (e : SchedEvent) (hne : e ≠ .reload)
    (hgen : st.taskGen = gen)
    (hph : ∀ p ∈ st.callers, phaseOk taskOutcome gen p) :
    (stepConc taskOutcome st e).taskGen = gen ∧
    (stepConc taskOutcome st e).spawnCount = st.spawnCount ∧
    (∀ p ∈ (stepConc taskOutcome st e).callers, phaseOk taskOutcome gen p) := by
  cases e with
  | reload => exact absurd rfl hne
  | start i =>
    rcases hget : st.callers.get? i with _ | ph
    · have hstep : stepConc taskOutcome st (.start i) = st := by
        simp only [stepConc, hget]
      rw [hstep]
      exact ⟨hgen, rfl, hph⟩
    · cases ph with
      | idle =>
        rcases hc : st.cache with _ | accounts
        · have hstep : stepConc taskOutcome st (.start i)
              = { st with callers := st.callers.set i (.awaiting st.taskGen) } := by
            simp only [stepConc, hget, hc]
          rw [hstep]
          refine ⟨hgen, rfl, ?_⟩
          intro p hp
          rcases List.mem_or_eq_of_mem_set hp with h | h
          · exact hph p h
          · rw [h]
            exact hgen
        · have hstep : stepConc taskOutcome st (.start i)
              = { st with callers := st.callers.set i (.finished none (.ok accounts)) } := by
            simp only [stepConc, hget, hc]
          rw [hstep]
          refine ⟨hgen, rfl, ?_⟩
          intro p hp
          rcases List.mem_or_eq_of_mem_set hp with h | h
          · exact hph p h
          · rw [h]
            intro g hg
            cases hg
      | awaiting g =>
        have hstep : stepConc taskOutcome st (.start i) = st := by
          simp only [stepConc, hget]
        rw [hstep]
        exact ⟨hgen, rfl, hph⟩
      | finished ag r =>
        have hstep : stepConc taskOutcome st (.start i) = st := by
          simp only [stepConc, hget]
        rw [hstep]
        exact ⟨hgen, rfl, hph⟩
  | resume i =>
    rcases hget : st.callers.get? i with _ | ph
    · have hstep : stepConc taskOutcome st (.resume i) = st := by
        simp only [stepConc, hget]
      rw [hstep]
      exact ⟨hgen, rfl, hph⟩
    · cases ph with
      | idle =>
        have hstep : stepConc taskOutcome st (.resume i) = st := by
          simp only [stepConc, hget]
        rw [hstep]
        exact ⟨hgen, rfl, hph⟩
      | awaiting g =>
        have hgok : g = gen := hph _ (List.get?_mem hget)
        rcases hout : taskOutcome g with accounts | err
        · have hstep : stepConc taskOutcome st (.resume i)
              = { st with
                    cache := some accounts,
                    callers := st.callers.set i (.finished (some g) (.ok accounts)) } := by
            simp only [stepConc, hget, hout]
          rw [hstep]
          refine ⟨hgen, rfl, ?_⟩
          intro p hp
          rcases List.mem_or_eq_of_mem_set hp with h | h
          · exact hph p h
          · rw [h]
            intro g2 hg2
            cases hg2
            exact ⟨hgok, by rw [hout]; rfl⟩
        · have hstep : stepConc taskOutcome st (.resume i)
              = { st with
                    cache := some [],
                    callers := st.callers.set i
                      (.finished (some g) (.error (.error failedLoadMessage))) } := by
            simp only [stepConc, hget, hout]
          rw [hstep]
          refine ⟨hgen, rfl, ?_⟩
          intro p hp
          rcases List.mem_or_eq_of_mem_set hp with h | h
          · exact hph p h
          · rw [h]
            intro g2 hg2
            cases hg2
            exact ⟨hgok, by rw [hout]; rfl⟩
      | finished ag r =>
        have hstep : stepConc taskOutcome st (.resume i) = st := by
          simp only [stepConc, hget]
        rw [hstep]
        exact ⟨hgen, rfl, hph⟩

/-- The generation invariant carries over any reload-free event sequence, and
the task reference and spawn count never change along it. -/
theorem runConc_inv (taskOutcome : Nat → LoadResult) (gen : Nat) :
    ∀ (events : List SchedEvent) (st : ConcState), SchedEvent.reload ∉ events →
    st.taskGen = gen → (∀ p ∈ st.callers, phaseOk taskOutcome gen p) →
    (runConc taskOutcome st events).taskGen = gen ∧
    (runConc taskOutcome st events).spawnCount = st.spawnCount ∧
    (∀ p ∈ (runConc taskOutcome st events).callers, phaseOk taskOutcome gen p)
  | [], _, _, hgen, hph => ⟨hgen, rfl, hph⟩
  | e :: es, st, hnr, hgen, hph => by
    have hne : e ≠ .reload := by
      intro h
      exact hnr (h ▸ List.mem_cons_self e es)
    obtain ⟨h1, h2, h3⟩ := stepConc_preserves taskOutcome gen st e hne hgen hph
    have ih := runConc_inv taskOutcome gen es (stepConc taskOutcome st e)
      (fun h => hnr (List.mem_cons_of_mem _ h)) h1 h3
    exact ⟨ih.1, ih.2.1.trans h2, ih.2.2⟩

/-- C1: the account load is single-flight.  Along every reload-free event
sequence (any interleaving of `getAttachedAccounts` callers starting and
resuming) the stored task reference never changes and `loadPersistedAccounts`
is never invoked again (the spawn count is constant); every caller that
suspends awaits exactly the generation's one task object; every caller that
awaited observed that one task's settled outcome — the same success list or
the same failure for all of them.  Only the cache-clearing reload step makes
a new task: it bumps the spawn count by exactly one, replaces the task
reference and drops the cache. -/
theorem C1_single_flight (taskOutcome : Nat → LoadResult) (st : ConcState)
    (events : List SchedEvent) (hnoreload : SchedEvent.reload ∉ events)
    (hph : ∀ p ∈ st.callers, phaseOk taskOutcome st.taskGen p) :
    (runConc taskOutcome st events).taskGen = st.taskGen ∧
    (runConc taskOutcome st events).spawnCount = st.spawnCount ∧
    (∀ p ∈ (runConc taskOutcome st events).callers, ∀ g,
       p = CallerPhase.awaiting g → g = st.taskGen) ∧
    (∀ p ∈ (runConc taskOutcome st events).callers, ∀ g r,
       p = CallerPhase.finished (some g) r →
       g = st.taskGen ∧ r = resultOfTask (taskOutcome st.taskGen)) ∧
    (∀ st2 : ConcState,
       (stepConc taskOutcome st2 .reload).spawnCount = st2.spawnCount + 1 ∧
       (stepConc taskOutcome st2 .reload).taskGen = st2.taskGen + 1 ∧
       (stepConc taskOutcome st2 .reload).cache = none) := by
  obtain ⟨h1, h2, h3⟩ := runConc_inv taskOutcome st.taskGen events st hnoreload rfl hph
  refine ⟨h1, h2, ?_, ?_, fun st2 => ⟨rfl, rfl, rfl⟩⟩
  · intro p hp g hpg
    have := h3 p hp
    rw [hpg] at this
    exact this
  · intro p hp g r hpg
    have := h3 p hp
    rw [hpg] at this
    obtain ⟨hg, hr⟩ := this g rfl
    exact ⟨hg, by rw [hr, hg]⟩

/-- C1 witness: two concurrent callers over a failing task, interleaved
(both start before either resumes): no reload, so the task reference stays at
generation 0 and the spawn count stays at 1 (the constructor's single task);
both callers finish having awaited generation 0 with the identical outcome. -/
theorem C1_single_flight_witness :
    (runConc (fun _ => .failure (.error "boom"))
        { cache := none, taskGen := 0, spawnCount := 1, callers := [.idle, .idle] }
        [.start 0, .start 1, .resume 0, .resume 1]).taskGen = 0 ∧
    (runConc (fun _ => .failure (.error "boom"))
        { cache := none, taskGen := 0, spawnCount := 1, callers := [.idle, .idle] }
        [.start 0, .start 1, .resume 0, .resume 1]).spawnCount = 1 ∧
    ∀ p ∈ (runConc (fun _ => .failure (.error "boom"))
        { cache := none, taskGen := 0, spawnCount := 1, callers := [.idle, .idle] }
        [.start 0, .start 1, .resume 0, .resume 1]).callers, ∀ g r,
      p = CallerPhase.finished (some g) r →
      g = 0 ∧ r = resultOfTask ((fun _ => LoadResult.failure (.error "boom")) 0) := by
  have h := C1_single_flight (fun _ => .failure (.error "boom"))
      { cache := none, taskGen := 0, spawnCount := 1, callers := [.idle, .idle] }
      [.start 0, .start 1, .resume 0, .resume 1]
      (by decide)
      (by
        intro p hp
        rcases List.mem_cons.mp hp with h | h
        · rw [h]; exact trivial
        · rw [List.mem_singleton.mp h]; exact trivial)
  exact ⟨h.1, h.2.1, h.2.2.2.1⟩

/-- C10: when the load task of the current generation fails, the sequential
call that awaited it raises the replacement load-failure error and leaves the
empty list in the cache; every later sequential call finds the (truthy) empty
array cached and returns it successfully without awaiting anything; a
cache-clearing reload drops the cache and installs a fresh task, so the next
call awaits the new generation. -/
theorem C10_failed_load (taskOutcome : Nat → LoadResult) (st : ConcState)
    (i : Nat) (err : ThrownError)
    (hcache : st.cache = none)
    (hidle : st.callers.get? i = some .idle)
    (hfail : taskOutcome st.taskGen = .failure err) :
    ((runConc taskOutcome st [.start i, .resume i]).cache = some [] ∧
     (runConc taskOutcome st [.start i, .resume i]).callers.get? i
       = some (.finished (some st.taskGen) (.error (.error failedLoadMessage)))) ∧
    (∀ st2 : ConcState, ∀ j : Nat, st2.cache = some [] →
       st2.callers.get? j = some .idle →
       (runConc taskOutcome st2 [.start j, .resume j]).cache = some [] ∧
       (runConc taskOutcome st2 [.start j, .resume j]).callers.get? j
         = some (.finished none (.ok []))) ∧
    (∀ st3 : ConcState,
       (stepConc taskOutcome st3 .reload).cache = none ∧
       (stepConc taskOutcome st3 .reload).taskGen = st3.taskGen + 1) := by
  refine ⟨?_, ?_, fun st3 => ⟨rfl, rfl⟩⟩
  · have hs1 : stepConc taskOutcome st (.start i)
        = { st with callers := st.callers.set i (.awaiting st.taskGen) } := by
      simp only [stepConc, hidle, hcache]
    have hget1 : (stepConc taskOutcome st (.start i)).callers.get? i
        = some (.awaiting st.taskGen) := by
      rw [hs1]
      exact listGet?SetSame _ _ _ _ hidle
    have hrun : runConc taskOutcome st [.start i, .resume i]
        = { st with
              cache := some [],
              callers := (st.callers.set i (.awaiting st.taskGen)).set i
                (.finished (some st.taskGen) (.error (.error failedLoadMessage))) } := by
      show stepConc taskOutcome (stepConc taskOutcome st (.start i)) (.resume i) = _
      rw [hs1]
      have hg : (st.callers.set i (CallerPhase.awaiting st.taskGen)).get? i
          = some (CallerPhase.awaiting st.taskGen) := listGet?SetSame _ _ _ _ hidle
      simp only [stepConc, hg, hfail]
    rw [hrun]
    exact ⟨rfl, listGet?SetSame _ _ _ _ (listGet?SetSame _ _ _ _ hidle)⟩
  · intro st2 j hc2 hidle2
    have hs1 : stepConc taskOutcome st2 (.start j)
        = { st2 with callers := st2.callers.set j (.finished none (.ok [])) } := by
      simp only [stepConc, hidle2, hc2]
    have hget1 : (stepConc taskOutcome st2 (.start j)).callers.get? j
        = some (.finished none (.ok [])) := by
      rw [hs1]
      exact listGet?SetSame _ _ _ _ hidle2
    have hrun : runConc taskOutcome st2 [.start j, .resume j]
        = stepConc taskOutcome st2 (.start j) := by
      show stepConc taskOutcome (stepConc taskOutcome st2 (.start j)) (.resume j) = _
      rw [hs1]
      have hg : (st2.callers.set j (CallerPhase.finished none (Except.ok []))).get? j
          = some (CallerPhase.finished none (Except.ok [])) := listGet?SetSame _ _ _ _ hidle2
      simp only [stepConc, hg]
    rw [hrun, hs1]
    exact ⟨hc2, listGet?SetSame _ _ _ _ hidle2⟩

/-- C10 witness: with a failing generation-0 task, the first sequential call
raises and caches `[]`, a later call on the resulting state returns `.ok []`
without awaiting, and a reload resets the cache and bumps the generation. -/
theorem C10_failed_load_witness :
    ((runConc (fun _ => .failure (.error "boom"))
        { cache := none, taskGen := 0, spawnCount := 1, callers := [.idle, .idle] }
        [.start 0, .resume 0]).cache = some [] ∧
     (runConc (fun _ => .failure (.error "boom"))
        { cache := none, taskGen := 0, spawnCount := 1, callers := [.idle, .idle] }
        [.start 0, .resume 0]).callers.get? 0
       = some (.finished (some 0) (.error (.error failedLoadMessage)))) ∧
    ((runConc (fun _ => .failure (.error "boom"))
        { cache := some [], taskGen := 0, spawnCount := 1,
          callers := [.finished (some 0) (.error (.error failedLoadMessage)), .idle] }
        [.start 1, .resume 1]).cache = some [] ∧
     (runConc (fun _ => .failure (.error "boom"))
        { cache := some [], taskGen := 0, spawnCount := 1,
          callers := [.finished (some 0) (.error (.error failedLoadMessage)), .idle] }
        [.start 1, .resume 1]).callers.get? 1 = some (.finished none (.ok []))) := by
  have h := C10_failed_load (fun _ => .failure (.error "boom"))
      { cache := none, taskGen := 0, spawnCount := 1, callers := [.idle, .idle] }
      0 (.error "boom") rfl rfl rfl
  exact ⟨h.1, h.2.1
    { cache := some [], taskGen := 0, spawnCount := 1,
      callers := [.finished (some 0) (.error (.error failedLoadMessage)), .idle] }
    1 rfl rfl⟩

end VsCodeCosmos
